import Mathlib

/-!
Verification development for the prakvedaa-crm-frontend repository.

The repository is a two-role clinical CRM front end (React/TypeScript).
This file shallowly embeds the decision logic of its views:

* the doctor view's data loading (`src/pages/Doctor.tsx`, `loadAll`),
* consultation update submission (`patchConsultation` in `src/pages/Doctor.tsx`
  and `updateConsultation` in the duplicate `Doctor.tsx` source `part_000`),
* the print-eligibility gate (`printConsultation` guard in `part_000`, and the
  `canPrint` expression in `Sales.tsx` variant `part_001` line 319),
* the WhatsApp deep-link construction (`waLink` in `Doctor.tsx` / `Sales.tsx`),
* the latest-consultation-per-patient reduction (`latestByPatient` in
  `Sales.tsx` source `part_001`, lines 97-111),
* the credential decode performed at login (`src/auth.tsx`, `login`).

Modelling conventions:
* TypeScript optional/nullable fields become `Option`; JS `undefined` and
  `null` are both `none` where the code treats them alike (`??`, `||`, `?.`).
* `scheduled_at` strings are used by the code only through `Date.parse` and
  truthiness, so they are embedded by their parsed value, an `Option Int` of
  millisecond timestamps (`none` for `null`/`undefined`/`""`, all falsy and
  all parsed to the same `-1` sentinel by `latestByPatient`).  Timestamps may
  be negative (dates before the Unix epoch parse to negative milliseconds).
  Strings that parse to `NaN` are outside the model (their parsing is
  implementation-defined in JS).
* `toLocaleString` is locale/timezone dependent, so link builders take the
  rendering function as an explicit parameter.
-/

/-! ## JS string primitives used by the views -/

/-- The whitespace class of the JS `\s` regex and `String.prototype.trim`. -/
def jsWhitespace (c : Char) : Bool :=
  c == ' ' || c == '\t' || c == '\n' || c == '\r' ||
  c.val == 0x0b || c.val == 0x0c || c.val == 0xa0 || c.val == 0x1680 ||
  (0x2000 ≤ c.val && c.val ≤ 0x200a) || c.val == 0x2028 || c.val == 0x2029 ||
  c.val == 0x202f || c.val == 0x205f || c.val == 0x3000 || c.val == 0xfeff

/-- JS `String.prototype.trim`. -/
def jsTrim (s : String) : String :=
  String.mk (((s.data.dropWhile jsWhitespace).reverse.dropWhile jsWhitespace).reverse)

/-- JS `s.replace(/\s+/g, "")`: remove every whitespace character. -/
def stripWhitespace (s : String) : String :=
  String.mk (s.data.filter (fun c => !jsWhitespace c))

/-- JS `s.replace(/^\+/, "")`: remove a single leading plus sign. -/
def dropLeadingPlus (s : String) : String :=
  match s.data with
  | '+' :: rest => String.mk rest
  | _ => s

/-- JS `a || b` on strings (empty string is falsy). -/
def jsOr (a b : String) : String :=
  if a = "" then b else a

/-! ## Data model (`Patient`, `Consultation` record shapes of the views) -/

inductive Status where
  | pending
  | completed
deriving DecidableEq

structure Patient where
  id : Nat
  name : String
  age : Option Nat
  contact : Option String
  notes : Option String
  created_by : String
  assigned_doctor_email : Option String
deriving DecidableEq

structure Consultation where
  id : Nat
  patient_id : Nat
  scheduled_at : Option Int
  video_url : String
  created_by : String
  status : Option Status
  doctor_notes : Option String
deriving DecidableEq

/-- `c.status ?? "pending"` / `c.status || "pending"`: the status every view
renders and tests, defaulting an absent status to pending. -/
def effStatus (c : Consultation) : Status :=
  c.status.getD .pending

/-! ## Print gate (`part_000` `printConsultation` guard; `part_001` line 319) -/

/-- `part_001` line 319:
`cons && status === "completed" && !!cons.doctor_notes?.trim()`
(with `status = cons?.status ?? "pending"`), for a present consultation. -/
def canPrint (c : Consultation) : Bool :=
  (effStatus c == .completed) &&
    (match c.doctor_notes with
     | none => false
     | some s => !(jsTrim s == ""))

/-- `part_000` `printConsultation` lines 117-123: with
`notes = (c.doctor_notes || "").trim()`, the early return fires when
`status !== "completed" || !notes`; eligibility is the negation. -/
def printEligible (c : Consultation) : Bool :=
  !(!(effStatus c == .completed) || (jsTrim (c.doctor_notes.getD "") == ""))

/-! ## Notification link builder (`waLink` rows in `Doctor.tsx` 202-210 and
`Sales.tsx` 364-372) -/

/-- `p?.contact?.replace(/\s+/g, "")?.replace(/^\+/, "") || ""`:
the normalized phone string, empty when the patient or contact is absent. -/
def phoneOf (p : Option Patient) : String :=
  match p with
  | none => ""
  | some pp =>
    match pp.contact with
    | none => ""
    | some ct => dropLeadingPlus (stripWhitespace ct)

/-- Percent-encoding: characters `encodeURIComponent` leaves unescaped. -/
def uriUnreserved (c : Char) : Bool :=
  ('A' ≤ c && c ≤ 'Z') || ('a' ≤ c && c ≤ 'z') || ('0' ≤ c && c ≤ '9') ||
  c == '-' || c == '_' || c == '.' || c == '!' || c == '~' || c == '*' ||
  c == '\x27' || c == '(' || c == ')'

/-- UTF-8 bytes of a scalar value. -/
def utf8Bytes (c : Char) : List Nat :=
  let n := c.toNat
  if n < 0x80 then [n]
  else if n < 0x800 then
    [0xC0 ||| (n >>> 6), 0x80 ||| (n &&& 0x3F)]
  else if n < 0x10000 then
    [0xE0 ||| (n >>> 12), 0x80 ||| ((n >>> 6) &&& 0x3F), 0x80 ||| (n &&& 0x3F)]
  else
    [0xF0 ||| (n >>> 18), 0x80 ||| ((n >>> 12) &&& 0x3F),
     0x80 ||| ((n >>> 6) &&& 0x3F), 0x80 ||| (n &&& 0x3F)]

/-- Upper-case hex digit. -/
def hexDigit (n : Nat) : Char :=
  if n < 10 then Char.ofNat (48 + n) else Char.ofNat (55 + n)

/-- `%XX` escape of one byte. -/
def pctByte (b : Nat) : List Char :=
  ['%', hexDigit (b / 16), hexDigit (b % 16)]

/-- JS `encodeURIComponent`. -/
def encodeURIComponent (s : String) : String :=
  String.mk ((s.data.map (fun c =>
    if uriUnreserved c then [c] else ((utf8Bytes c).map pctByte).flatten)).flatten)

/-- The templated message body of the WhatsApp link
(`Doctor.tsx` 206-208 / `Sales.tsx` 368-370):
`Hello ${p?.name || ""}, your video consultation link: ${c.video_url}` plus
` at ${when}` only when `c.scheduled_at` is truthy, where `when` is the
locale rendering `new Date(c.scheduled_at).toLocaleString()` (passed in as
`render`). -/
def waMessage (p : Option Patient) (c : Consultation) (render : Int → String) : String :=
  "Hello " ++ jsOr (match p with | some pp => pp.name | none => "") "" ++
    ", your video consultation link: " ++ c.video_url ++
    (match c.scheduled_at with
     | some t => " at " ++ render t
     | none => "")

/-- `Doctor.tsx` 202-210: the WhatsApp deep link, offered only when the
normalized phone is non-empty (`phone ? ... : undefined`). -/
def waLink (p : Option Patient) (c : Consultation) (render : Int → String) : Option String :=
  let phone := phoneOf p
  if phone = "" then none
  else some ("https://wa.me/" ++ phone ++ "?text=" ++
    encodeURIComponent (waMessage p c render))

/-! ## Latest consultation per patient (`part_001` `latestByPatient`, 97-111) -/

/-- `const t1 = c.scheduled_at ? Date.parse(c.scheduled_at) : -1`:
the comparison timestamp, with `-1` for an absent schedule. -/
def tVal (c : Consultation) : Int :=
  match c.scheduled_at with
  | some t => t
  | none => -1

/-- `t1 > t2 || (t1 === t2 && c.id > prev.id)`: does candidate `c` replace the
stored candidate `prev`? -/
def replaces (c prev : Consultation) : Bool :=
  decide (tVal prev < tVal c) || (decide (tVal c = tVal prev) && decide (prev.id < c.id))

/-- One step of the reduction: store `c` under its patient id, replacing any
previous candidate iff `replaces`. -/
def stepLatest (m : Nat → Option Consultation) (c : Consultation) :
    Nat → Option Consultation :=
  fun pid =>
    if pid = c.patient_id then
      match m c.patient_id with
      | none => some c
      | some prev => if replaces c prev then some c else some prev
    else m pid

/-- `part_001` lines 97-111: left-to-right reduction of the consultation list
to one candidate per patient id. -/
def latestByPatient (l : List Consultation) : Nat → Option Consultation :=
  l.foldl stepLatest (fun _ => none)

/-- The step of the reduction restricted to one patient's consultations. -/
def bestStep (acc : Option Consultation) (c : Consultation) : Option Consultation :=
  match acc with
  | none => some c
  | some prev => if replaces c prev then some c else some prev

/-- The strict (parsed time, id) order the replacement test implements. -/
def keyLt (a b : Consultation) : Prop :=
  tVal a < tVal b ∨ (tVal a = tVal b ∧ a.id < b.id)

/-- Modelled from the claim's words (C5): a candidate is later than the stored
one when both timestamps are real and strictly ordered, or when the candidate
has a real timestamp and the stored one is absent (absent is a sentinel
earlier than any real time). -/
def claimLater (a b : Option Int) : Bool :=
  match a, b with
  | some x, some y => decide (y < x)
  | some _, none => true
  | none, _ => false

/-- Modelled from the claim's words (C5): replacement iff strictly later under
the absent-is-bottom order, or equal timestamps (including both absent) with a
larger id. -/
def claimReplaces (c prev : Consultation) : Bool :=
  claimLater c.scheduled_at prev.scheduled_at ||
    ((c.scheduled_at == prev.scheduled_at) && decide (prev.id < c.id))

/-! ## Doctor view data loading (`Doctor.tsx` `loadAll`, 47-59; `part_000` 45-81) -/

/-- `loadAll` stores the fetched payloads verbatim:
`setPatients(p.data); setConsultations(c.data)` — the comment in the source
says "backend already filters"; no client-side filtering is applied. -/
def doctorScope (ps : List Patient) (cs : List Consultation) :
    List Patient × List Consultation :=
  (ps, cs)

/-! ## Consultation update submission -/

/-- The request body of `PATCH /consultations/update`. -/
structure UpdateBody where
  consultation_id : Nat
  notes : Option String
  status : Option Status
deriving DecidableEq

/-- Outcome of a client-side submission attempt: either a request is issued
with a body, or the submission is rejected before any request (the
`PreconditionFailed` outcome named by the specification). -/
inductive SubmitOutcome where
  | issued (body : UpdateBody)
  | precondFailed
deriving DecidableEq

/-- `Doctor.tsx` `patchConsultation` 86-94: body always carries
`notes: notesInput ?? ""`, and `status: "completed"` exactly when `markDone`. -/
def patchBody (notesInput : String) (markDone : Bool) (c : Consultation) : UpdateBody :=
  { consultation_id := c.id
    notes := some notesInput
    status := if markDone then some Status.completed else none }

/-- `Doctor.tsx` `patchConsultation`: the submission itself.  The source
performs no check of any kind before `api.patch` — every call issues a
request. -/
def patchConsultation (notesInput : String) (markDone : Bool) (c : Consultation) :
    SubmitOutcome :=
  SubmitOutcome.issued (patchBody notesInput markDone c)

/-- `part_000` `updateConsultation` 87-95: the body carries the note draft and
the status draft (both seeded for every loaded consultation, the status draft
freely selectable between pending and completed in the row's select,
`part_000` 326-339). -/
def updateBody (noteDraft : String) (statusDraft : Status) (c : Consultation) : UpdateBody :=
  { consultation_id := c.id
    notes := some noteDraft
    status := some statusDraft }

/-- Modelled from the spec: the external record store's update operation
(spec section 6, "update a consultation's notes/status") applies the submitted
fields to the stored consultation, leaving absent fields unchanged.  The
backend is not part of this repository's sources. -/
def applyUpdate (c : Consultation) (b : UpdateBody) : Consultation :=
  { c with
    doctor_notes := match b.notes with
      | some n => some n
      | none => c.doctor_notes
    status := match b.status with
      | some s => some s
      | none => c.status }

/-- A sequence of `patchConsultation` submissions applied in order
(each action is the pair of the notes input and the `markDone` flag). -/
def applyPatches (c : Consultation) (acts : List (String × Bool)) : Consultation :=
  acts.foldl (fun cur a => applyUpdate cur (patchBody a.1 a.2 cur)) c

/-! ## Patient lookup and rendering fallbacks -/

/-- `Doctor.tsx` `patientById` 67-71: builds `m[p.id] = p` over the list, so a
later record with the same id overwrites an earlier one; lookup of an unknown
id is `undefined`. -/
def patientById (ps : List Patient) : Nat → Option Patient :=
  ps.foldl (fun m p => fun k => if k = p.id then some p else m k) (fun _ => none)

/-- `Doctor.tsx` row 219: `{p?.name || "—"}`. -/
def rowPatientName (ps : List Patient) (c : Consultation) : String :=
  jsOr (match patientById ps c.patient_id with | some p => p.name | none => "") "—"

/-- `part_000` `enriched` 204-211:
`patientName: patients[c.patient_id]?.name ?? `#${c.patient_id}``. -/
def enrichedName (ps : List Patient) (c : Consultation) : String :=
  match patientById ps c.patient_id with
  | some p => p.name
  | none => "#" ++ toString c.patient_id

/-- `Doctor.tsx` `printSummary` 133: `${p?.name ?? "—"}`. -/
def printName (ps : List Patient) (c : Consultation) : String :=
  match patientById ps c.patient_id with
  | some p => p.name
  | none => "—"

/-- `Doctor.tsx` `printSummary` 105: `const phone = p?.contact || "—"`. -/
def printPhone (ps : List Patient) (c : Consultation) : String :=
  jsOr (match patientById ps c.patient_id with | some p => p.contact.getD "" | none => "") "—"

/-- `Doctor.tsx` `printSummary` 104:
`const notes = (c.doctor_notes || "").trim() || "—"`. -/
def printNotes (c : Consultation) : String :=
  jsOr (jsTrim (c.doctor_notes.getD "")) "—"

/-! ## Credential decode at login (`src/auth.tsx` `login`, 76-88)

`const payload = JSON.parse(atob(bearer.split(".")[1]));`
`const usr: User = { email: payload.sub, role: payload.role };`

`atob` is the forgiving-base64 decoder of the HTML standard; `JSON.parse` is
JS JSON parsing (numbers kept here as their lexemes; their numeric value is
never used by the login path). -/

/-- ASCII whitespace removed by forgiving-base64. -/
def asciiWs (c : Char) : Bool :=
  c == '\t' || c == '\n' || c == '\x0c' || c == '\r' || c == ' '

/-- Value of a base64 alphabet character. -/
def b64Val (c : Char) : Option Nat :=
  if 'A' ≤ c && c ≤ 'Z' then some (c.toNat - 65)
  else if 'a' ≤ c && c ≤ 'z' then some (c.toNat - 97 + 26)
  else if '0' ≤ c && c ≤ '9' then some (c.toNat - 48 + 52)
  else if c == '+' then some 62
  else if c == '/' then some 63
  else none

/-- Strip one or two trailing padding characters. -/
def dropTrailingEq (l : List Char) : List Char :=
  match l.reverse with
  | '=' :: '=' :: r => r.reverse
  | '=' :: r => r.reverse
  | _ => l

/-- Bit-reassembly of 6-bit groups into bytes (leftover bits are discarded,
as forgiving-base64 does). -/
def b64Bytes : List Nat → Nat → Nat → List Nat
  | [], _, _ => []
  | v :: rest, buf, bits =>
    let buf2 := buf * 64 + v
    let bits2 := bits + 6
    if 8 ≤ bits2 then
      ((buf2 >>> (bits2 - 8)) &&& 0xFF) ::
        b64Bytes rest (buf2 &&& ((1 <<< (bits2 - 8)) - 1)) (bits2 - 8)
    else b64Bytes rest buf2 bits2

/-- JS `atob` (forgiving-base64 decode to a binary string of U+0000..U+00FF
code points); `none` models the thrown `InvalidCharacterError`. -/
def atob (s : String) : Option String :=
  let d0 := s.data.filter (fun c => !asciiWs c)
  let d := if d0.length % 4 == 0 then dropTrailingEq d0 else d0
  if d.length % 4 == 1 then none
  else
    match d.mapM b64Val with
    | none => none
    | some vals => some (String.mk ((b64Bytes vals 0 0).map Char.ofNat))

/-- JSON values; numbers are kept as their lexemes (the login path never reads
a numeric value). -/
inductive Jval where
  | null
  | bool (b : Bool)
  | num (lexeme : String)
  | str (s : String)
  | arr (elems : List Jval)
  | obj (members : List (String × Jval))

/-- JSON insignificant whitespace. -/
def jsonWs (c : Char) : Bool :=
  c == ' ' || c == '\t' || c == '\n' || c == '\r'

/-- Skip insignificant whitespace. -/
def skipJsonWs (s : List Char) : List Char :=
  s.dropWhile jsonWs

/-- Hex digit value. -/
def hexVal (c : Char) : Option Nat :=
  if '0' ≤ c && c ≤ '9' then some (c.toNat - 48)
  else if 'a' ≤ c && c ≤ 'f' then some (c.toNat - 97 + 10)
  else if 'A' ≤ c && c ≤ 'F' then some (c.toNat - 65 + 10)
  else none

/-- Lex the body of a JSON string after its opening quote; returns the
unescaped content and the input after the closing quote. -/
def lexStringAux : List Char → Option (List Char × List Char)
  | [] => none
  | '"' :: rest => some ([], rest)
  | '\\' :: '"' :: r => (lexStringAux r).map (fun pr => ('"' :: pr.1, pr.2))
  | '\\' :: '\\' :: r => (lexStringAux r).map (fun pr => ('\\' :: pr.1, pr.2))
  | '\\' :: '/' :: r => (lexStringAux r).map (fun pr => ('/' :: pr.1, pr.2))
  | '\\' :: 'b' :: r => (lexStringAux r).map (fun pr => ('\x08' :: pr.1, pr.2))
  | '\\' :: 'f' :: r => (lexStringAux r).map (fun pr => ('\x0c' :: pr.1, pr.2))
  | '\\' :: 'n' :: r => (lexStringAux r).map (fun pr => ('\n' :: pr.1, pr.2))
  | '\\' :: 'r' :: r => (lexStringAux r).map (fun pr => ('\r' :: pr.1, pr.2))
  | '\\' :: 't' :: r => (lexStringAux r).map (fun pr => ('\t' :: pr.1, pr.2))
  | '\\' :: 'u' :: a :: b :: e :: d :: r =>
    (match hexVal a, hexVal b, hexVal e, hexVal d with
     | some x1, some x2, some x3, some x4 =>
       (lexStringAux r).map
         (fun pr => (Char.ofNat (((x1 * 16 + x2) * 16 + x3) * 16 + x4) :: pr.1, pr.2))
     | _, _, _, _ => none)
  | '\\' :: _ => none
  | c :: rest =>
    if c.toNat < 0x20 then none
    else (lexStringAux rest).map (fun pr => (c :: pr.1, pr.2))

/-- Split off a maximal run of decimal digits. -/
def lexDigits (s : List Char) : List Char × List Char :=
  (s.takeWhile Char.isDigit, s.dropWhile Char.isDigit)

/-- Lex the mandatory digits after an exponent marker and optional sign. -/
def lexExpTail (acc : List Char) (s : List Char) : Option (List Char × List Char) :=
  let (sgn, r) := match s with
    | '+' :: r => (['+'], r)
    | '-' :: r => (['-'], r)
    | _ => (([] : List Char), s)
  let (ds, r2) := lexDigits r
  if ds.isEmpty then none else some (acc ++ sgn ++ ds, r2)

/-- Lex an optional exponent part. -/
def lexExp (acc : List Char) (s : List Char) : Option (List Char × List Char) :=
  match s with
  | 'e' :: r => lexExpTail (acc ++ ['e']) r
  | 'E' :: r => lexExpTail (acc ++ ['E']) r
  | _ => some (acc, s)

/-- Lex an optional fraction part, then the optional exponent. -/
def lexFrac (acc : List Char) (s : List Char) : Option (List Char × List Char) :=
  match s with
  | '.' :: r =>
    let (ds, r2) := lexDigits r
    if ds.isEmpty then none else lexExp (acc ++ ['.'] ++ ds) r2
  | _ => lexExp acc s

/-- Lex a JSON number (strict grammar: no leading zeros, no bare dot). -/
def lexNumber (s : List Char) : Option (List Char × List Char) :=
  let (neg, s1) := match s with
    | '-' :: r => ((['-'] : List Char), r)
    | _ => (([] : List Char), s)
  match s1 with
  | '0' :: r =>
    (match r with
     | c :: _ => if c.isDigit then none else lexFrac (neg ++ ['0']) r
     | [] => lexFrac (neg ++ ['0']) [])
  | c :: _ =>
    if c.isDigit then
      let (ds, r) := lexDigits s1
      lexFrac (neg ++ ds) r
    else none
  | [] => none

/-- Recursive-descent JSON value parser, fuel-bounded.  The continuation of a
partially consumed array or object is re-parsed by prepending its opening
bracket, which keeps the definition a single structural recursion on fuel. -/
def parseVal : Nat → List Char → Option (Jval × List Char)
  | 0, _ => none
  | f + 1, s =>
    match skipJsonWs s with
    | '\x7b' :: r =>
      (match skipJsonWs r with
       | '\x7d' :: r2 => some (Jval.obj [], r2)
       | '"' :: r2 =>
         (match lexStringAux r2 with
          | none => none
          | some (k, r3) =>
            match skipJsonWs r3 with
            | ':' :: r4 =>
              (match parseVal f r4 with
               | none => none
               | some (v, r5) =>
                 match skipJsonWs r5 with
                 | ',' :: r6 =>
                   (match parseVal f ('\x7b' :: r6) with
                    | some (Jval.obj ms, r7) =>
                      some (Jval.obj ((String.mk k, v) :: ms), r7)
                    | _ => none)
                 | '\x7d' :: r6 => some (Jval.obj [(String.mk k, v)], r6)
                 | _ => none)
            | _ => none)
       | _ => none)
    | '[' :: r =>
      (match skipJsonWs r with
       | ']' :: r2 => some (Jval.arr [], r2)
       | _ =>
         match parseVal f r with
         | none => none
         | some (v, r2) =>
           match skipJsonWs r2 with
           | ',' :: r3 =>
             (match parseVal f ('[' :: r3) with
              | some (Jval.arr vs, r4) => some (Jval.arr (v :: vs), r4)
              | _ => none)
           | ']' :: r3 => some (Jval.arr [v], r3)
           | _ => none)
    | '"' :: r => (lexStringAux r).map (fun pr => (Jval.str (String.mk pr.1), pr.2))
    | 't' :: 'r' :: 'u' :: 'e' :: r => some (Jval.bool true, r)
    | 'f' :: 'a' :: 'l' :: 's' :: 'e' :: r => some (Jval.bool false, r)
    | 'n' :: 'u' :: 'l' :: 'l' :: r => some (Jval.null, r)
    | s2 => (lexNumber s2).map (fun pr => (Jval.num (String.mk pr.1), pr.2))

/-- JS `JSON.parse`; `none` models a thrown `SyntaxError`. -/
def jsonParse (s : String) : Option Jval :=
  match parseVal (2 * s.length + 8) s.data with
  | some (j, rest) => if (skipJsonWs rest).isEmpty then some j else none
  | none => none

/-- JS property access `obj[k]` on a parsed JSON value: on an object the last
binding of the key wins (as `JSON.parse` keeps the last duplicate); on any
non-object non-null value the result is `undefined`. -/
def jGet (j : Jval) (k : String) : Option Jval :=
  match j with
  | Jval.obj ms => (ms.reverse.find? (fun kv => kv.1 == k)).map (fun kv => kv.2)
  | _ => none

/-- JS `s.split(".")` on the character list. -/
def splitDots : List Char → List (List Char)
  | [] => [[]]
  | '.' :: rest => [] :: splitDots rest
  | c :: rest =>
    match splitDots rest with
    | [] => [[c]]
    | h :: t => (c :: h) :: t

/-- `src/auth.tsx` `login` 84-85: the decode step
`JSON.parse(atob(bearer.split(".")[1]))` followed by
`{ email: payload.sub, role: payload.role }`.  An out-of-range index gives JS
`undefined`, which `atob` coerces to the string `"undefined"` (and then
rejects).  Accessing `.sub` on a `null` payload throws, hence `none` there;
on any other non-object payload it yields `undefined`.  The result is the
pair `(payload.sub, payload.role)`; `none` overall models a thrown error. -/
def codeDecode (bearer : String) : Option (Option Jval × Option Jval) :=
  let mid := String.mk ((splitDots bearer.data).getD 1 "undefined".data)
  match atob mid with
  | none => none
  | some bin =>
    match jsonParse bin with
    | none => none
    | some Jval.null => none
    | some j => some (jGet j "sub", jGet j "role")

/-! ## Concrete records and tokens used in the claim instances -/

/-- A patient assigned to a different doctor than `doc@crm.com`. -/
def strayPatient : Patient :=
  ⟨1, "Pat One", none, none, none, "sales@crm.com", some "other@crm.com"⟩

/-- A patient of `doc@crm.com`. -/
def ownPatient : Patient :=
  ⟨2, "Pat Two", none, none, none, "sales@crm.com", some "doc@crm.com"⟩

/-- A consultation of `ownPatient`. -/
def ownConsultation : Consultation :=
  ⟨11, 2, none, "https://v/o", "sales@crm.com", some .pending, none⟩

/-- A patient whose contact is the empty string. -/
def emptyContactPatient : Patient :=
  ⟨3, "No Phone", none, some "", none, "sales@crm.com", none⟩

/-- The patient of the round-trip scenario. -/
def asha : Patient :=
  ⟨4, "Asha", none, some "+91 98765 43210", none, "sales@crm.com", none⟩

/-- The consultation of the round-trip scenario (no `scheduled_at`). -/
def ashaCons : Consultation :=
  ⟨9, 4, none, "https://v/x", "sales@crm.com", none, none⟩

/-- A pending consultation with empty stored notes (update scenario). -/
def pendingEmptyNotes : Consultation :=
  ⟨5, 1, none, "https://v/u", "sales@crm.com", some .pending, some ""⟩

/-- A completed consultation with notes. -/
def completedCons : Consultation :=
  ⟨6, 1, none, "https://v/u", "sales@crm.com", some .completed, some "Take rest"⟩

/-- Two distinct consultations for patient 1 sharing id 1 and an absent
schedule, differing in `video_url` only. -/
def dupIdA : Consultation := ⟨1, 1, none, "https://v/a", "s", none, none⟩

/-- See `dupIdA`. -/
def dupIdB : Consultation := ⟨1, 1, none, "https://v/b", "s", none, none⟩

/-- A consultation scheduled 5 milliseconds before the Unix epoch
(`Date.parse` of such a timestamp string is `-5`). -/
def preEpochCons : Consultation := ⟨10, 1, some (-5), "https://v/p", "s", none, none⟩

/-- An unscheduled consultation of the same patient with a smaller id. -/
def absentSchedCons : Consultation := ⟨3, 1, none, "https://v/q", "s", none, none⟩

/-- P7 scenario: `{id: 3, scheduledAt: null}`. -/
def p7a : Consultation := ⟨3, 7, none, "https://v/1", "s", none, none⟩

/-- P7 scenario: `{id: 5, scheduledAt: null}`. -/
def p7b : Consultation := ⟨5, 7, none, "https://v/2", "s", none, none⟩

/-- A well-formed three-part token whose payload is
`\x7b"sub":"doc@crm.com","role":"doctor"\x7d`. -/
def tokenDoctor : String :=
  "hdr.eyJzdWIiOiJkb2NAY3JtLmNvbSIsInJvbGUiOiJkb2N0b3IifQ==.sig"

/-- The same payload in a token with only two dot-delimited parts. -/
def tokenTwoParts : String :=
  "hdr.eyJzdWIiOiJkb2NAY3JtLmNvbSIsInJvbGUiOiJkb2N0b3IifQ=="

/-- The same payload in a token with four dot-delimited parts. -/
def tokenFourParts : String :=
  "hdr.eyJzdWIiOiJkb2NAY3JtLmNvbSIsInJvbGUiOiJkb2N0b3IifQ==.x.y"

/-- A three-part token whose payload is
`\x7b"sub":"a@b","role":"admin"\x7d` — a role outside the recognized set. -/
def tokenAdmin : String :=
  "hdr.eyJzdWIiOiJhQGIiLCJyb2xlIjoiYWRtaW4ifQ==.sig"

/-- A token with a single part: `split(".")[1]` is `undefined` and
`atob("undefined")` throws. -/
def tokenOnePart : String := "justonepart"

/-- A consultation whose `patient_id` (42) matches no loaded patient. -/
def orphanCons : Consultation :=
  ⟨9, 42, none, "https://v/w", "sales@crm.com", none, none⟩

/-- Substring test on character lists (used to state message properties). -/
def containsSeq (needle hay : List Char) : Bool :=
  hay.tails.any (fun t => needle.isPrefixOf t)

/-- Id-injectivity of a consultation list: distinct records never share an id
(the data model's ids are unique and server-assigned). -/
def IdInj (l : List Consultation) : Prop :=
  ∀ x ∈ l, ∀ y ∈ l, x.id = y.id → x = y

/-! ## Helper lemmas about the latest-consultation reduction -/

theorem replaces_eq_keyLt (c prev : Consultation) : replaces c prev = true ↔ keyLt prev c := by
  unfold replaces keyLt
  rw [Bool.or_eq_true, Bool.and_eq_true]
  simp only [decide_eq_true_eq]
  exact or_congr Iff.rfl (and_congr eq_comm Iff.rfl)

theorem keyLt_asymm {a b : Consultation} (h1 : keyLt a b) (h2 : keyLt b a) : False := by
  unfold keyLt at h1 h2; omega

theorem keyLt_trans {a b c : Consultation} (h1 : keyLt a b) (h2 : keyLt b c) : keyLt a c := by
  unfold keyLt at h1 h2 ⊢; omega

theorem keyLt_or (a b : Consultation) : keyLt a b ∨ keyLt b a ∨ a.id = b.id := by
  unfold keyLt; omega

theorem IdInj.mono {l l' : List Consultation} (hsub : l ⊆ l') (h : IdInj l') : IdInj l :=
  fun x hx y hy => h x (hsub hx) y (hsub hy)

theorem foldl_stepLatest (l : List Consultation) (m : Nat → Option Consultation) (p : Nat) :
    (l.foldl stepLatest m) p =
      (l.filter (fun c => c.patient_id == p)).foldl bestStep (m p) := by
  induction l generalizing m with
  | nil => rfl
  | cons c l ih =>
    simp only [List.foldl_cons, List.filter_cons]
    by_cases h : c.patient_id = p
    · simp only [h, beq_self_eq_true, if_true, List.foldl_cons]
      rw [ih]
      congr 1
      simp [stepLatest, bestStep, h]
    · have hb : (c.patient_id == p) = false := by simp [h]
      rw [hb]
      simp only [Bool.false_eq_true, if_false]
      rw [ih]
      congr 1
      simp only [stepLatest]
      rw [if_neg (fun hpc => h hpc.symm)]

theorem bestStep_some (a c : Consultation) :
    bestStep (some a) c = some (if replaces c a then c else a) := by
  by_cases h : replaces c a <;> simp [bestStep, h]

theorem foldl_bestStep_max (l : List Consultation) :
    ∀ a : Consultation, IdInj (a :: l) →
      ∃ m, l.foldl bestStep (some a) = some m ∧ m ∈ a :: l ∧
        ∀ d ∈ a :: l, d = m ∨ keyLt d m := by
  induction l with
  | nil =>
    intro a _
    exact ⟨a, rfl, by simp, by simp⟩
  | cons c l ih =>
    intro a hinj
    have hsub : ∀ x : Consultation, x ∈ c :: l → x ∈ a :: c :: l := by
      intro x hx; exact List.mem_cons_of_mem a hx
    have hina : a ∈ a :: c :: l := List.mem_cons_self a _
    have hinc : c ∈ a :: c :: l := hsub c (List.mem_cons_self c l)
    by_cases hrep : replaces c a
    · -- candidate replaces the accumulator: continue with c
      have hinj' : IdInj (c :: l) := IdInj.mono (by intro x hx; exact hsub x hx) hinj
      obtain ⟨m, hm, hmem, hmax⟩ := ih c hinj'
      have hac : keyLt a c := (replaces_eq_keyLt c a).mp hrep
      refine ⟨m, ?_, hsub m hmem, ?_⟩
      · simpa [List.foldl_cons, bestStep, hrep] using hm
      · intro d hd
        rcases List.mem_cons.mp hd with hda | hd'
        · rw [hda]
          rcases hmax c (List.mem_cons_self c l) with hcm | hcm
          · exact Or.inr (hcm ▸ hac)
          · exact Or.inr (keyLt_trans hac hcm)
        · exact hmax d hd'
    · -- candidate rejected: continue with a
      have hinj' : IdInj (a :: l) := by
        intro x hx y hy
        have hx' : x ∈ a :: c :: l := by
          rcases List.mem_cons.mp hx with h1 | h1
          · exact h1 ▸ hina
          · exact List.mem_cons_of_mem a (List.mem_cons_of_mem c h1)
        have hy' : y ∈ a :: c :: l := by
          rcases List.mem_cons.mp hy with h1 | h1
          · exact h1 ▸ hina
          · exact List.mem_cons_of_mem a (List.mem_cons_of_mem c h1)
        exact hinj x hx' y hy'
      obtain ⟨m, hm, hmem, hmax⟩ := ih a hinj'
      have hnac : ¬ keyLt a c := fun hk => hrep ((replaces_eq_keyLt c a).mpr hk)
      have hca : c = a ∨ keyLt c a := by
        rcases keyLt_or a c with h1 | h1 | h1
        · exact absurd h1 hnac
        · exact Or.inr h1
        · exact Or.inl (hinj c hinc a hina h1.symm)
      refine ⟨m, ?_, ?_, ?_⟩
      · simpa [List.foldl_cons, bestStep, hrep] using hm
      · rcases List.mem_cons.mp hmem with h1 | h1
        · exact h1 ▸ hina
        · exact List.mem_cons_of_mem a (List.mem_cons_of_mem c h1)
      · intro d hd
        rcases List.mem_cons.mp hd with hda | hd'
        · rw [hda]
          exact hmax a (List.mem_cons_self a l)
        · rcases List.mem_cons.mp hd' with hdc | hd''
          · rw [hdc]
            rcases hca with h1 | h1
            · rw [h1]
              exact hmax a (List.mem_cons_self a l)
            · rcases hmax a (List.mem_cons_self a l) with h2 | h2
              · exact Or.inr (h2 ▸ h1)
              · exact Or.inr (keyLt_trans h1 h2)
          · exact hmax d (List.mem_cons_of_mem a hd'')

theorem latestByPatient_perm (l l' : List Consultation) (hinj : IdInj l)
    (hperm : l.Perm l') (p : Nat) :
    latestByPatient l p = latestByPatient l' p := by
  unfold latestByPatient
  rw [foldl_stepLatest, foldl_stepLatest]
  have hpf : (l.filter (fun c => c.patient_id == p)).Perm
      (l'.filter (fun c => c.patient_id == p)) := hperm.filter _
  cases hlf : l.filter (fun c => c.patient_id == p) with
  | nil =>
    rw [hlf] at hpf
    rw [List.Perm.eq_nil hpf.symm]
  | cons c rest =>
    rw [hlf] at hpf
    cases hlf2 : l'.filter (fun c => c.patient_id == p) with
    | nil =>
      rw [hlf2] at hpf
      exact absurd (List.Perm.eq_nil hpf) (by simp)
    | cons c2 rest2 =>
      rw [hlf2] at hpf
      have hsub1 : ∀ x ∈ c :: rest, x ∈ l := by
        intro x hx
        have : x ∈ l.filter (fun c => c.patient_id == p) := hlf ▸ hx
        exact List.mem_of_mem_filter this
      have hsub2 : ∀ x ∈ c2 :: rest2, x ∈ l := by
        intro x hx
        have hx' : x ∈ l'.filter (fun c => c.patient_id == p) := hlf2 ▸ hx
        exact hperm.mem_iff.mpr (List.mem_of_mem_filter hx')
      obtain ⟨m, hm, hmem, hmax⟩ :=
        foldl_bestStep_max rest c (fun x hx y hy => hinj x (hsub1 x hx) y (hsub1 y hy))
      obtain ⟨m2, hm2, hmem2, hmax2⟩ :=
        foldl_bestStep_max rest2 c2 (fun x hx y hy => hinj x (hsub2 x hx) y (hsub2 y hy))
      have heq : m = m2 := by
        have hmm2 : m ∈ c2 :: rest2 := hpf.mem_iff.mp hmem
        have hm2m : m2 ∈ c :: rest := hpf.mem_iff.mpr hmem2
        rcases hmax2 m hmm2 with h1 | h1
        · exact h1
        · rcases hmax m2 hm2m with h2 | h2
          · exact h2.symm
          · exact absurd h1 (fun hk => keyLt_asymm hk h2)
      have e1 : List.foldl bestStep (none : Option Consultation) (c :: rest) =
          List.foldl bestStep (some c) rest := rfl
      have e2 : List.foldl bestStep (none : Option Consultation) (c2 :: rest2) =
          List.foldl bestStep (some c2) rest2 := rfl
      rw [e1, e2, hm, hm2, heq]

theorem replaces_iff (c prev : Consultation) :
    replaces c prev = true ↔
      (tVal prev < tVal c ∨ (tVal c = tVal prev ∧ prev.id < c.id)) := by
  simp [replaces]

theorem latestByPatient_append (l : List Consultation) (c : Consultation) (p : Nat) :
    latestByPatient (l ++ [c]) p =
      if p = c.patient_id then
        match latestByPatient l c.patient_id with
        | none => some c
        | some prev =>
          if tVal prev < tVal c ∨ (tVal c = tVal prev ∧ prev.id < c.id) then some c
          else some prev
      else latestByPatient l p := by
  unfold latestByPatient
  rw [List.foldl_append]
  simp only [List.foldl_cons, List.foldl_nil]
  generalize List.foldl stepLatest (fun _ => (none : Option Consultation)) l = M
  unfold stepLatest
  by_cases h : p = c.patient_id
  · rw [if_pos h, if_pos h]
    cases hm : M c.patient_id with
    | none => rfl
    | some prev =>
      show (if replaces c prev = true then some c else some prev) =
        (if tVal prev < tVal c ∨ (tVal c = tVal prev ∧ prev.id < c.id) then some c
         else some prev)
      by_cases hrep : replaces c prev
      · rw [if_pos hrep, if_pos ((replaces_iff c prev).mp hrep)]
      · rw [if_neg hrep, if_neg (fun hp => hrep ((replaces_iff c prev).mpr hp))]
  · rw [if_neg h, if_neg h]

/-! ## Additional helper lemmas -/

theorem jsTrim_eq_empty {s : String} (h : ∀ ch ∈ s.data, jsWhitespace ch = true) :
    jsTrim s = "" := by
  unfold jsTrim
  have h1 : s.data.dropWhile jsWhitespace = [] := by
    rw [List.dropWhile_eq_nil_iff]
    exact h
  rw [h1]
  rfl

/-! ## Claim theorems -/

/-- Claim C1, counterexample: the doctor view's `loadAll` stores the fetched
collections verbatim, so for identity email `doc@crm.com` and an input list
containing a patient assigned to `other@crm.com`, the rendered patient list
contains that out-of-scope patient. -/
theorem C1_counterexample :
    strayPatient ∈ (doctorScope [strayPatient] []).1 ∧
    strayPatient.assigned_doctor_email ≠ some "doc@crm.com" :=
  ⟨List.mem_cons_self _ _, by decide⟩

/-- Claim C1, amended: the doctor view applies no client-side filter — it
renders exactly the collections it receives; consequently the claimed scoping
property holds iff the backend already supplies collections satisfying it
(inputs satisfying the filter yield outputs satisfying it). -/
theorem C1_amended :
    (∀ (ps : List Patient) (cs : List Consultation), doctorScope ps cs = (ps, cs)) ∧
    (∀ (em : String) (ps : List Patient) (cs : List Consultation),
      (∀ p ∈ ps, p.assigned_doctor_email = some em) →
      (∀ c ∈ cs, ∃ p ∈ ps, p.id = c.patient_id) →
      ((∀ p ∈ (doctorScope ps cs).1, p.assigned_doctor_email = some em) ∧
       (∀ c ∈ (doctorScope ps cs).2, ∃ p ∈ (doctorScope ps cs).1, p.id = c.patient_id))) :=
  ⟨fun _ _ => rfl, fun _ _ _ h1 h2 => ⟨h1, h2⟩⟩

/-- Witness for C1_amended at a concrete pre-filtered input. -/
theorem C1_witness :
    (∀ p ∈ [ownPatient], p.assigned_doctor_email = some "doc@crm.com") ∧
    (∀ c ∈ [ownConsultation], ∃ p ∈ [ownPatient], p.id = c.patient_id) ∧
    ((∀ p ∈ (doctorScope [ownPatient] [ownConsultation]).1,
        p.assigned_doctor_email = some "doc@crm.com") ∧
     (∀ c ∈ (doctorScope [ownPatient] [ownConsultation]).2,
        ∃ p ∈ (doctorScope [ownPatient] [ownConsultation]).1, p.id = c.patient_id)) :=
  ⟨by decide, by decide,
    C1_amended.2 "doc@crm.com" [ownPatient] [ownConsultation] (by decide) (by decide)⟩

/-- Claim C2, counterexample: submitting `markDone` with empty notes on a
pending consultation with empty stored notes issues a request carrying
`status: completed` and empty notes — it is not rejected with a
precondition failure before the request. -/
theorem C2_counterexample :
    patchConsultation "" true pendingEmptyNotes =
      SubmitOutcome.issued ⟨5, some "", some Status.completed⟩ ∧
    patchConsultation "" true pendingEmptyNotes ≠ SubmitOutcome.precondFailed ∧
    jsTrim "" = "" ∧ effStatus pendingEmptyNotes = Status.pending := by
  refine ⟨rfl, ?_, rfl, rfl⟩
  decide

/-- Claim C2, amended: the doctor view submits unconditionally — every call of
`patchConsultation` issues a request whose body carries the notes input and
`completed` exactly when `markDone`; no client-side precondition check exists,
so a completed status paired with empty merged notes is submitted rather than
rejected (and the non-empty-notes submission is issued identically). -/
theorem C2_amended :
    ∀ (notesInput : String) (markDone : Bool) (c : Consultation),
      patchConsultation notesInput markDone c =
        SubmitOutcome.issued
          ⟨c.id, some notesInput, if markDone then some Status.completed else none⟩ ∧
      patchConsultation notesInput markDone c ≠ SubmitOutcome.precondFailed :=
  fun _ _ _ => ⟨rfl, fun h => SubmitOutcome.noConfusion h⟩

/-- Claim C3: the print action is eligible iff the consultation's effective
status is completed and its notes are non-empty after trimming; whitespace-only
notes are ineligible.  Both source variants of the gate agree. -/
theorem C3_print_gate :
    ∀ c : Consultation,
      (canPrint c = true ↔
        (effStatus c = Status.completed ∧ jsTrim (c.doctor_notes.getD "") ≠ "")) ∧
      printEligible c = canPrint c ∧
      ((∀ ch ∈ (c.doctor_notes.getD "").data, jsWhitespace ch = true) →
        canPrint c = false) := by
  intro c
  refine ⟨?_, ?_, ?_⟩
  · cases hn : c.doctor_notes with
    | none => simp [canPrint, hn, show jsTrim "" = "" from rfl]
    | some s => simp [canPrint, hn, Bool.and_eq_true, beq_iff_eq]
  · cases hn : c.doctor_notes with
    | none => simp [canPrint, printEligible, hn, show jsTrim "" = "" from rfl]
    | some s => simp [canPrint, printEligible, hn]
  · intro h
    have ht : jsTrim (c.doctor_notes.getD "") = "" := jsTrim_eq_empty h
    cases hn : c.doctor_notes with
    | none => simp [canPrint, hn]
    | some s =>
      rw [hn] at ht
      simp only [Option.getD_some] at ht
      simp [canPrint, hn, ht]

/-- Witness for C3_print_gate: whitespace-only notes on a completed
consultation are not printable. -/
theorem C3_witness :
    (∀ ch ∈ ((⟨8, 1, none, "https://v/w", "s", some Status.completed,
        some "   "⟩ : Consultation).doctor_notes.getD "").data, jsWhitespace ch = true) ∧
    canPrint ⟨8, 1, none, "https://v/w", "s", some Status.completed, some "   "⟩ = false :=
  ⟨by decide,
    (C3_print_gate ⟨8, 1, none, "https://v/w", "s", some Status.completed,
      some "   "⟩).2.2 (by decide)⟩

/-- Claim C4, counterexample: on an input containing two distinct
consultations that share an id (and patient and absent schedule), the
reduction is order-dependent — the two orders of the same two records give
different results. -/
theorem C4_counterexample :
    [dupIdA, dupIdB].Perm [dupIdB, dupIdA] ∧
    latestByPatient [dupIdA, dupIdB] 1 ≠ latestByPatient [dupIdB, dupIdA] 1 :=
  ⟨List.Perm.swap dupIdB dupIdA [], by decide⟩

/-- Claim C4, amended: for inputs whose consultations never share an id
(the data model's ids are unique), the reduction is order-independent: any
permutation of the input yields the same per-patient map. -/
theorem C4_amended :
    ∀ (l l2 : List Consultation), IdInj l → l.Perm l2 →
      ∀ p, latestByPatient l p = latestByPatient l2 p :=
  fun l l2 hinj hperm p => latestByPatient_perm l l2 hinj hperm p

/-- Witness for C4_amended on a concrete two-element shuffle. -/
theorem C4_witness :
    IdInj [p7a, p7b] ∧ [p7a, p7b].Perm [p7b, p7a] ∧
    latestByPatient [p7a, p7b] 7 = latestByPatient [p7b, p7a] 7 :=
  ⟨by unfold IdInj; decide, List.Perm.swap p7b p7a [],
    C4_amended [p7a, p7b] [p7b, p7a] (by unfold IdInj; decide)
      (List.Perm.swap p7b p7a []) 7⟩

/-- Claim C5, counterexample: the code's sentinel for an absent timestamp is
`-1` milliseconds, which is *later* than a real pre-epoch timestamp, so a
candidate with absent `scheduled_at` (id 3) replaces a stored consultation
scheduled at `-5` ms (id 10), although under the claim's order (absent below
all real times, so not "strictly later" and not "equal") it must not. -/
theorem C5_counterexample :
    replaces absentSchedCons preEpochCons = true ∧
    claimReplaces absentSchedCons preEpochCons = false ∧
    latestByPatient [preEpochCons, absentSchedCons] 1 = some absentSchedCons := by
  refine ⟨rfl, rfl, by decide⟩

/-- Claim C5, amended: the reduction keeps, per patient, the maximum under
the lexicographic order on `(parsed scheduledAt with absent ↦ -1 ms, id)`:
a candidate replaces the stored one iff its sentineled timestamp is strictly
greater, or the timestamps are equal and its id is larger.  (The `-1`
sentinel is *not* below pre-epoch real timestamps.)  In particular two
absent-timestamp consultations of patient 7 with ids 3 and 5 select id 5. -/
theorem C5_amended :
    (∀ (l : List Consultation) (c : Consultation) (p : Nat),
      latestByPatient (l ++ [c]) p =
        if p = c.patient_id then
          match latestByPatient l c.patient_id with
          | none => some c
          | some prev =>
            if tVal prev < tVal c ∨ (tVal c = tVal prev ∧ prev.id < c.id) then some c
            else some prev
        else latestByPatient l p) ∧
    latestByPatient [p7a, p7b] 7 = some p7b :=
  ⟨latestByPatient_append, by decide⟩

/-- Claim C6, counterexample: a three-part token whose payload carries
`role: "admin"` — outside the recognized roles — is decoded successfully into
an identity with role `admin`; no `UnknownRole` failure exists in the code. -/
theorem C6_counterexample :
    codeDecode tokenAdmin = some (some (Jval.str "a@b"), some (Jval.str "admin")) ∧
    "admin" ≠ "sales" ∧ "admin" ≠ "doctor" :=
  ⟨rfl, by decide, by decide⟩

/-- Claim C6, amended: the login decode reads only the second dot-delimited
part: it succeeds, returning `(payload.sub, payload.role)` without any role
validation, for tokens with two, three or four parts alike; a token without a
second part fails with a thrown decoding error (not a typed
`MalformedCredential`). -/
theorem C6_amended :
    codeDecode tokenDoctor =
      some (some (Jval.str "doc@crm.com"), some (Jval.str "doctor")) ∧
    codeDecode tokenTwoParts =
      some (some (Jval.str "doc@crm.com"), some (Jval.str "doctor")) ∧
    codeDecode tokenFourParts =
      some (some (Jval.str "doc@crm.com"), some (Jval.str "doctor")) ∧
    codeDecode tokenOnePart = none :=
  ⟨rfl, rfl, rfl, rfl⟩

/-- Claim C7: the WhatsApp action is offered iff the patient's contact is
non-empty after normalization, independently of the consultation's status;
with an empty contact no link is offered. -/
theorem C7_notify_gate :
    ∀ (render : Int → String) (p : Option Patient) (c : Consultation),
      ((waLink p c render).isSome = true ↔ phoneOf p ≠ "") ∧
      (∀ st : Option Status, waLink p { c with status := st } render = waLink p c render) ∧
      (phoneOf (some emptyContactPatient) = "" ∧
        waLink (some emptyContactPatient) c render = none) := by
  intro render p c
  refine ⟨?_, ?_, rfl, rfl⟩
  · by_cases h : phoneOf p = "" <;> simp [waLink, h]
  · intro st
    cases c
    rfl

/-- Claim C8: for a non-empty normalized contact, the built link addresses the
normalized (bare digit) string and carries the message as one percent-encoded
query parameter; the message greets the patient by name (empty if absent),
contains the literal video URL, and appends " at <rendering>" iff
`scheduled_at` is present.  The round-trip scenario: contact
"+91 98765 43210" yields addressee "919876543210", and the message for "Asha"
with video URL "https://v/x" and no schedule begins with "Hello Asha,",
contains "https://v/x" and has no " at " clause. -/
theorem C8_link_shape :
    (∀ (render : Int → String) (p : Patient) (c : Consultation),
      phoneOf (some p) ≠ "" →
      waLink (some p) c render =
        some ("https://wa.me/" ++ phoneOf (some p) ++ "?text=" ++
          encodeURIComponent (waMessage (some p) c render))) ∧
    (∀ (render : Int → String) (p : Patient) (c : Consultation),
      waMessage (some p) c render =
        "Hello " ++ jsOr p.name "" ++ ", your video consultation link: " ++
          c.video_url ++
          (match c.scheduled_at with
           | some t => " at " ++ render t
           | none => "")) ∧
    phoneOf (some asha) = "919876543210" ∧
    (∀ render : Int → String,
      waMessage (some asha) ashaCons render =
        "Hello Asha, your video consultation link: https://v/x") ∧
    ("Hello Asha, your video consultation link: https://v/x").data.take 11 =
      "Hello Asha,".data ∧
    containsSeq "https://v/x".data
      ("Hello Asha, your video consultation link: https://v/x").data = true ∧
    containsSeq " at ".data
      ("Hello Asha, your video consultation link: https://v/x").data = false := by
  refine ⟨?_, ?_, rfl, ?_, rfl, by decide, by decide⟩
  · intro render p c h
    simp only [waLink]
    rw [if_neg h]
  · intro render p c
    rfl
  · intro render
    rfl

/-- Witness for C8_link_shape at the round-trip scenario input. -/
theorem C8_witness :
    phoneOf (some asha) ≠ "" ∧
    waLink (some asha) ashaCons (fun _ => "") =
      some ("https://wa.me/" ++ phoneOf (some asha) ++ "?text=" ++
        encodeURIComponent (waMessage (some asha) ashaCons (fun _ => ""))) :=
  ⟨by decide, C8_link_shape.1 (fun _ => "") asha ashaCons (by decide)⟩

/-- Claim C9, counterexample: the select-based update path of the duplicate
doctor view lets the status draft be set to pending on a completed
consultation, and the submitted update then transitions the stored status
from completed back to pending. -/
theorem C9_counterexample :
    effStatus completedCons = Status.completed ∧
    effStatus (applyUpdate completedCons
      (updateBody "Take rest" Status.pending completedCons)) = Status.pending :=
  ⟨rfl, rfl⟩

/-- Claim C9, amended: the claim holds for the `patchConsultation` entry point
(whose bodies only ever carry status `completed` or no status): along any
sequence of such submissions a completed consultation stays completed.  The
select-based `updateConsultation` path, however, sets the stored status to
exactly the drafted status — including pending on a completed consultation. -/
theorem C9_amended :
    (∀ (c : Consultation) (acts : List (String × Bool)),
      effStatus c = Status.completed →
        effStatus (applyPatches c acts) = Status.completed) ∧
    (∀ (c : Consultation) (nd : String) (sd : Status),
      effStatus (applyUpdate c (updateBody nd sd c)) = sd) := by
  constructor
  · intro c acts
    induction acts generalizing c with
    | nil => exact fun h => h
    | cons a acts ih =>
      intro h
      show effStatus (applyPatches (applyUpdate c (patchBody a.1 a.2 c)) acts) =
        Status.completed
      apply ih
      obtain ⟨n, m⟩ := a
      cases m
      · exact h
      · rfl
  · intro c nd sd
    rfl

/-- Witness for C9_amended.1 on a concrete completed consultation and a
two-step submission sequence. -/
theorem C9_witness :
    effStatus completedCons = Status.completed ∧
    effStatus (applyPatches completedCons [("more notes", false), ("done", true)]) =
      Status.completed :=
  ⟨rfl, C9_amended.1 completedCons [("more notes", false), ("done", true)] rfl⟩

/-- Claim C10: when a consultation's `patient_id` matches no loaded patient,
every dereferencing view operation is total and falls back to its
placeholder: the row name and print fields render an em dash, the enriched
name renders `#<patient_id>`, and the notification link is simply not offered. -/
theorem C10_missing_patient_total :
    ∀ (ps : List Patient) (c : Consultation) (render : Int → String),
      patientById ps c.patient_id = none →
      rowPatientName ps c = "—" ∧
      enrichedName ps c = "#" ++ toString c.patient_id ∧
      printName ps c = "—" ∧
      printPhone ps c = "—" ∧
      waLink (patientById ps c.patient_id) c render = none := by
  intro ps c render h
  refine ⟨?_, ?_, ?_, ?_, ?_⟩
  · simp [rowPatientName, h, jsOr]
  · simp [enrichedName, h]
  · simp [printName, h]
  · simp [printPhone, h, jsOr]
  · simp [waLink, phoneOf, h]

/-- Witness for C10_missing_patient_total with an empty patient list. -/
theorem C10_witness :
    patientById [] orphanCons.patient_id = none ∧
    (rowPatientName [] orphanCons = "—" ∧
     enrichedName [] orphanCons = "#" ++ toString orphanCons.patient_id ∧
     printName [] orphanCons = "—" ∧
     printPhone [] orphanCons = "—" ∧
     waLink (patientById [] orphanCons.patient_id) orphanCons (fun _ => "") = none) :=
  ⟨rfl, C10_missing_patient_total [] orphanCons (fun _ => "") rfl⟩
